import Mathlib

/-!
Shallow embedding of `hid_pixel.py` (pixel-based HID screen driver):
the transport codec (`send_image` chunking, `read_device_state` decode
and drain), the audio spectrum analyzer state updates
(`_audio_callback`), the synthetic visualizer fallback
(`render_spotify`), the windowed I/O rate estimator (`render_io`), and
the multiplexer / connection-status logic of `main`.

Machine bytes are modelled as `Nat`, Python floats as exact rationals
`ℚ` (the properties checked here are about the discrete branch
structure of the float code, not about rounding).
-/

namespace HidPixel

/-- Fixed outbound HID report size in bytes (`REPORT_SIZE = 32`). -/
def REPORT_SIZE : Nat := 32

/-- Display width in pixels. -/
def OLED_WIDTH : Nat := 128

/-- Display height in pixels. -/
def OLED_HEIGHT : Nat := 64

/-- Framebuffer size: `OLED_WIDTH * OLED_HEIGHT // 8 = 1024` bytes. -/
def FRAMEBUFFER_SIZE : Nat := OLED_WIDTH * OLED_HEIGHT / 8

/-- Payload bytes per report: `REPORT_SIZE - 1 = 31` (line 41 of the source). -/
def PAYLOAD_SIZE : Nat := REPORT_SIZE - 1

/-- Command byte of the first report of a frame. -/
def CMD_START : Nat := 0x01

/-- Command byte of every subsequent report of a frame. -/
def CMD_DATA : Nat := 0x02

/-- Command byte of inbound device-state (screen request) messages. -/
def CMD_SCREEN_REQ : Nat := 0x03

/-- Python `range(0, stop, step)`: the multiples of `step` below `stop`. -/
def pyRange (stop step : Nat) : List Nat :=
  (List.range stop).filter (fun i => i % step == 0)

/-- One outbound report as built by `send_image`: a `REPORT_SIZE + 1` byte
buffer, byte 0 the HID report id `0x00`, byte 1 the command
(`CMD_START` iff the chunk offset `i` is 0, else `CMD_DATA`), bytes
`2..2+len(chunk)` the pixel chunk, the rest left zero-filled. -/
def mkReport (i : Nat) (chunk : List Nat) : List Nat :=
  0 :: (if i = 0 then CMD_START else CMD_DATA) ::
    (chunk ++ List.replicate (REPORT_SIZE - 1 - chunk.length) 0)

/-- The pixel-data chunks cut by the `send_image` loop
`for i in range(0, FRAMEBUFFER_SIZE, PAYLOAD_SIZE): chunk = pixel_data[i:i+PAYLOAD_SIZE]`. -/
def sendImageChunks (pixel : List Nat) : List (List Nat) :=
  (pyRange FRAMEBUFFER_SIZE PAYLOAD_SIZE).map
    (fun i => (pixel.drop i).take PAYLOAD_SIZE)

/-- The full reports emitted by `send_image`, in emission order. -/
def sendImageReports (pixel : List Nat) : List (List Nat) :=
  (pyRange FRAMEBUFFER_SIZE PAYLOAD_SIZE).map
    (fun i => mkReport i ((pixel.drop i).take PAYLOAD_SIZE))

/-- One outcome of `self.interface.read`: either a message (a byte list,
empty when the read timed out with nothing queued) or a raised
`hid.HIDException`. -/
inductive ReadEvent where
  | msg : List Nat → ReadEvent
  | err : ReadEvent

/-- Validity test of an inbound message as in `read_device_state`:
`len(data) >= 3 and data[0] == CMD_SCREEN_REQ`. -/
def isValid (d : List Nat) : Bool :=
  decide (3 ≤ d.length) && decide (d.getD 0 0 = CMD_SCREEN_REQ)

/-- The `(data[1], data[2])` screen/layer pair of a message. -/
def eventOf (d : List Nat) : Nat × Nat := (d.getD 1 0, d.getD 2 0)

/-- The non-blocking drain loop of `read_device_state`: reads until an
empty read (break, connection kept) or a transport error (connection
dropped), keeping the latest valid `(screen, layer)` pair. Returns the
final connected flag and the retained pair. -/
def drainReads : List ReadEvent → Option (Nat × Nat) → Bool × Option (Nat × Nat)
  | [], latest => (true, latest)
  | ReadEvent.err :: _, latest => (false, latest)
  | ReadEvent.msg d :: rest, latest =>
      if d.length = 0 then (true, latest)
      else drainReads rest (if isValid d then some (eventOf d) else latest)

/-- `HIDPixelScreen.read_device_state`: returns `none` when not
connected; otherwise performs one (possibly blocking) read followed by
the drain loop, and on a transport error marks the connection lost
while still returning the latest valid pair observed so far. The
result is `(connected flag after the call, returned value)`. -/
def read_device_state (connected : Bool) (queue : List ReadEvent) :
    Bool × Option (Nat × Nat) :=
  if connected then
    match queue with
    | [] => (true, none)
    | ReadEvent.err :: _ => (false, none)
    | ReadEvent.msg d :: rest =>
        drainReads rest (if isValid d then some (eventOf d) else none)
  else (false, none)

/-- Modelled from the spec: "Only the last valid event observed across
the whole drain is returned" — the `(screen, layer)` pair of the last
message in the queue satisfying `isValid`, used to compare against the
drain implementation. -/
def specLastValid (queue : List (List Nat)) : Option (Nat × Nat) :=
  (queue.reverse.find? isValid).map eventOf

/-- State mutated by `_audio_callback`: the 16 stored band levels
`_audio_bands` and the running auto-level peak `_audio_peak`. -/
structure AudioState where
  bands : List ℚ
  peak : ℚ
deriving DecidableEq

/-- Python `max(raw) if raw else 0.0`. -/
def blockMax : List ℚ → ℚ
  | [] => 0
  | h :: t => t.foldl max h

/-- One `_audio_callback` invocation after the raw band values of the
block have been computed (lines 417-428 of the source): fast-attack /
slow-decay peak update floored at `0.001`, then per-band normalization
clamped at 1 and asymmetric smoothing (instant rise, `0.75/0.25` blend
on fall). Rationals stand in for Python floats; `995/1000` is `0.995`,
`1/1000` is `0.001`, `3/4` is `0.75`, `1/4` is `0.25`. -/
def audioCallbackStep (st : AudioState) (raw : List ℚ) : AudioState :=
  let p := blockMax raw
  let p1 := if p > st.peak then p else st.peak * (995 / 1000)
  let p2 := max p1 (1 / 1000)
  AudioState.mk
    (List.zipWith
      (fun b r =>
        let level := min 1 (r / p2)
        if level > b then level else b * (3 / 4) + level * (1 / 4))
      st.bands raw)
    p2

/-- Initial analyzer state: `_audio_bands = [0.0] * 16`,
`_audio_peak = 0.001`. -/
def audioInit : AudioState := AudioState.mk (List.replicate 16 0) (1 / 1000)

/-- The analyzer state after a sequence of processed blocks, each given
by its 16 raw band values. -/
def processAudio (blocks : List (List ℚ)) : AudioState :=
  blocks.foldl audioCallbackStep audioInit

/-- Modelled from the spec: "peak = max(peak * 0.995, max(band values
this block), floor)" with `floor = 0.001` — the claimed peak-update
formula, to be compared against `audioCallbackStep`. -/
def claimedPeakUpdate (peak : ℚ) (raw : List ℚ) : ℚ :=
  max (max (peak * (995 / 1000)) (blockMax raw)) (1 / 1000)

/-- Invariant claimed for the analyzer state: 16 stored band levels,
each in `[0, 1]`, and peak at least `0.001`. -/
def AudioInv (st : AudioState) : Prop :=
  st.bands.length = 16 ∧ (∀ b ∈ st.bands, 0 ≤ b ∧ b ≤ 1) ∧ 1 / 1000 ≤ st.peak

/-- A test block whose 16 raw band values all equal `x`. -/
def rawBlock (x : ℚ) : List ℚ :=
  [x, x, x, x, x, x, x, x, x, x, x, x, x, x, x, x]

/-- One per-bar refresh of the synthetic fallback visualizer in
`render_spotify` (lines 583-588): when playing, the bar moves halfway
toward a random target drawn from `uniform(2, VIZ_H)` with
`VIZ_H = 12`; when not playing, the bar decays by `0.8` floored at 1.
`1/2` is `0.5`, `4/5` is `0.8`. -/
def vizBarUpdate (playing : Bool) (target v : ℚ) : ℚ :=
  if playing then v + (target - v) * (1 / 2) else max 1 (v * (4 / 5))

/-- The registered renderer list `SCREENS`, by function name; only its
length (4) matters to the multiplexer. -/
def SCREENS : List String :=
  ["render_system_info", "render_gpu_info", "render_io", "render_spotify"]

/-- The device-state handling of one `main` loop iteration (lines
628-632): given the current `(current_screen, current_layer)` pair and
the polled event, update the screen index only when it is in range of
`SCREENS`, and always update the layer when an event arrived. -/
def mainEventStep (cur : Nat × Nat) (state : Option (Nat × Nat)) : Nat × Nat :=
  match state with
  | none => cur
  | some s => (if s.1 < SCREENS.length then s.1 else cur.1, s.2)

/-- Initial multiplexer indices: `current_screen = 0`, `current_layer = 0`. -/
def mainInitialIndices : Nat × Nat := (0, 0)

/-- A status message printed by `main`. -/
inductive Notif where
  | connected : Notif
  | disconnected : Notif
  | notConnected : Notif
deriving DecidableEq

/-- The connection-status bookkeeping of `main`: whether the inner
`while screen.connected` loop is running, and the `error_printed` /
`init_printed` flags. -/
structure MainState where
  innerLoop : Bool
  errorPrinted : Bool
  initPrinted : Bool

/-- One observation of device availability processed by `main` (lines
613-643): from outside the inner loop, an available device means a
successful connect (printing per the `error_printed` / `init_printed`
flags), an unavailable one the `not connected` branch; inside the
inner loop, availability means a silent render/send iteration and
unavailability the inner-loop exit that prints `Device disconnected`
and sets `error_printed`. -/
def mainNotifStep (st : MainState) (avail : Bool) : MainState × List Notif :=
  if st.innerLoop then
    if avail then (st, [])
    else (MainState.mk false true st.initPrinted, [Notif.disconnected])
  else
    if avail then
      (MainState.mk true false true,
        (if st.errorPrinted then [Notif.connected] else []) ++
          (if st.initPrinted then [] else [Notif.connected]))
    else
      if st.errorPrinted then (st, [])
      else (MainState.mk false true st.initPrinted, [Notif.notConnected])

/-- The status messages `main` prints across a sequence of availability
observations, starting from `error_printed = False`,
`init_printed = False`, outside the inner loop. -/
def mainNotifRun (samples : List Bool) : List Notif :=
  (samples.foldl
    (fun acc avail =>
      let next := mainNotifStep acc.1 avail
      (next.1, acc.2 ++ next.2))
    (MainState.mk false false false, [])).2

/-- One sample of the `render_io` rolling window: timestamp and the
four monotonic byte counters. -/
structure IoSample where
  t : ℚ
  netSent : ℚ
  netRecv : ℚ
  diskRead : ℚ
  diskWrite : ℚ
deriving DecidableEq

/-- Rolling-average window `_IO_WINDOW = 1.0` seconds. -/
def ioWindow : ℚ := 1

/-- The eviction loop `while _io_samples and _io_samples[0][0] < cutoff:
_io_samples.pop(0)`. -/
def trimOld (cutoff : ℚ) : List IoSample → List IoSample
  | [] => []
  | s :: rest => if s.t < cutoff then trimOld cutoff rest else s :: rest

/-- The rate computation of `render_io` (lines 262-283): append the
current sample, evict samples older than the window, and if at least
two samples remain compute `(newest - oldest) / dt` for each counter
when `dt > 0`, else zero rates. Returns the retained samples and the
four rates (net up, net down, disk read, disk write). -/
def ioRatesStep (samples : List IoSample) (cur : IoSample) :
    List IoSample × (ℚ × ℚ × ℚ × ℚ) :=
  match trimOld (cur.t - ioWindow) (samples ++ [cur]) with
  | oldest :: second :: rest =>
      let dt := cur.t - oldest.t
      if 0 < dt then
        (oldest :: second :: rest,
          ((cur.netSent - oldest.netSent) / dt,
           (cur.netRecv - oldest.netRecv) / dt,
           (cur.diskRead - oldest.diskRead) / dt,
           (cur.diskWrite - oldest.diskWrite) / dt))
      else (oldest :: second :: rest, (0, 0, 0, 0))
  | kept => (kept, (0, 0, 0, 0))

end HidPixel

namespace HidPixel

set_option maxRecDepth 40000

theorem payload_size_eq : PAYLOAD_SIZE = 31 := rfl

theorem framebuffer_size_eq : FRAMEBUFFER_SIZE = 1024 := rfl

theorem pyRange_eq : pyRange FRAMEBUFFER_SIZE PAYLOAD_SIZE = List.range' 0 34 31 := by
  decide

theorem flatten_range'_chunks {α : Type} (n : Nat) :
    ∀ (k : Nat) (l : List α), l.length ≤ k * n →
      ((List.range' 0 k n).map (fun i => (l.drop i).take n)).flatten = l := by
  intro k
  induction k with
  | zero =>
      intro l hl
      have : l = [] := List.eq_nil_of_length_eq_zero (by omega)
      simp [this]
  | succ k ih =>
      intro l hl
      rw [List.range'_succ]
      simp only [List.map_cons, List.flatten_cons, List.drop_zero, Nat.zero_add]
      have hshift : List.range' n k n = (List.range' 0 k n).map (n + ·) := by
        rw [List.map_add_range', Nat.add_zero]
      rw [hshift, List.map_map]
      have hfun :
          ((fun i => (l.drop i).take n) ∘ (n + ·))
            = fun j => (((l.drop n).drop j).take n) := by
        funext j
        simp [Function.comp, List.drop_drop]
      rw [hfun]
      have hlen : (l.drop n).length ≤ k * n := by
        rw [List.length_drop]
        have : (k + 1) * n = k * n + n := Nat.succ_mul k n
        omega
      rw [ih (l.drop n) hlen, List.take_append_drop]

theorem sendImageReports_length (pixel : List Nat) :
    (sendImageReports pixel).length = 34 := by
  unfold sendImageReports
  rw [pyRange_eq, List.length_map, List.length_range']

theorem sendImageReports_commands (pixel : List Nat) :
    (sendImageReports pixel).map (fun r => r.getD 1 0)
      = CMD_START :: List.replicate 33 CMD_DATA := by
  unfold sendImageReports
  rw [pyRange_eq, List.map_map]
  have hfun :
      ((fun r => r.getD 1 0) ∘ fun i => mkReport i ((pixel.drop i).take PAYLOAD_SIZE))
        = fun i => if i = 0 then CMD_START else CMD_DATA := by
    funext i
    simp [Function.comp, mkReport]
  rw [hfun]
  decide

theorem sendImageChunks_lengths (pixel : List Nat) (h : pixel.length = 1024) :
    (sendImageChunks pixel).map List.length
      = List.replicate 33 PAYLOAD_SIZE ++ [1] := by
  unfold sendImageChunks
  rw [List.map_map, pyRange_eq]
  have hfun :
      (List.length ∘ fun i => (pixel.drop i).take PAYLOAD_SIZE)
        = fun i => min PAYLOAD_SIZE (1024 - i) := by
    funext i
    simp [Function.comp, h]
  rw [hfun]
  decide

theorem sendImageChunks_flatten (pixel : List Nat) (h : pixel.length = 1024) :
    (sendImageChunks pixel).flatten = pixel := by
  unfold sendImageChunks
  rw [pyRange_eq, payload_size_eq]
  exact flatten_range'_chunks 31 34 pixel (by omega)

theorem sendImageReports_getLast (pixel : List Nat) (h : pixel.length = 1024) :
    (sendImageReports pixel).getLast?
      = some (0 :: CMD_DATA :: (pixel.drop 1023 ++ List.replicate 30 0)) := by
  unfold sendImageReports
  rw [pyRange_eq, List.getLast?_map]
  have hlast : (List.range' 0 34 31).getLast? = some 1023 := by decide
  rw [hlast]
  have hdlen : (pixel.drop 1023).length = 1 := by
    rw [List.length_drop, h]
  have htake : (pixel.drop 1023).take PAYLOAD_SIZE = pixel.drop 1023 :=
    List.take_of_length_le (by rw [hdlen]; decide)
  simp [mkReport, htake, hdlen, REPORT_SIZE, payload_size_eq, h]

/-- C1: the spec claims a payload capacity of `REPORT_SIZE − 2 = 30`
bytes and hence 35 reports per 1024-byte frame; the code uses
`PAYLOAD_SIZE = REPORT_SIZE − 1 = 31` and emits 34 reports, refuted
here on the all-zero framebuffer. -/
theorem c1_counterexample :
    ¬ ((sendImageReports (List.replicate 1024 0)).length = 35) := by
  rw [sendImageReports_length]
  decide

/-- C1 (amended): for every 1024-byte framebuffer, `send_image` emits
exactly `ceil(1024/31) = 34` reports; the first carries `CMD_START`
and the remaining 33 carry `CMD_DATA`; the first 33 chunks carry
`PAYLOAD_SIZE = 31` payload bytes each and the final chunk carries
exactly `1024 − 31×33 = 1` byte. -/
theorem c1_report_shape (pixel : List Nat) (h : pixel.length = 1024) :
    (sendImageReports pixel).length = 34
  ∧ (sendImageReports pixel).map (fun r => r.getD 1 0)
      = CMD_START :: List.replicate 33 CMD_DATA
  ∧ (sendImageChunks pixel).map List.length
      = List.replicate 33 PAYLOAD_SIZE ++ [1] :=
  ⟨sendImageReports_length pixel, sendImageReports_commands pixel,
    sendImageChunks_lengths pixel h⟩

/-- C1 witness: the amended claim instantiated on the all-zero framebuffer. -/
theorem c1_report_shape_witness :
    (List.replicate 1024 0).length = 1024
  ∧ (sendImageReports (List.replicate 1024 0)).length = 34 :=
  ⟨by decide, (c1_report_shape (List.replicate 1024 0) (by decide)).1⟩

/-- C2: for every 1024-byte framebuffer, concatenating the payload
chunks of the emitted reports in order reproduces the framebuffer
exactly (strict order, no gaps, no overlaps), and the unused bytes of
the final report are zero-filled: the last report is the report id,
`CMD_DATA`, the single remaining pixel byte, then 30 zero bytes. -/
theorem c2_concat_exact (pixel : List Nat) (h : pixel.length = 1024) :
    (sendImageChunks pixel).flatten = pixel
  ∧ (sendImageReports pixel).getLast?
      = some (0 :: CMD_DATA :: (pixel.drop 1023 ++ List.replicate 30 0)) :=
  ⟨sendImageChunks_flatten pixel h, sendImageReports_getLast pixel h⟩

/-- C2 witness: the round-trip instantiated on the all-zero framebuffer. -/
theorem c2_concat_exact_witness :
    (List.replicate 1024 0).length = 1024
  ∧ (sendImageChunks (List.replicate 1024 0)).flatten = List.replicate 1024 0 :=
  ⟨by decide, (c2_concat_exact (List.replicate 1024 0) (by decide)).1⟩

theorem findLast_reverse_cons (d : List Nat) (rest : List (List Nat))
    (latest : Option (Nat × Nat)) :
    ((((d :: rest).reverse.find? isValid).map eventOf).or latest)
      = (((rest.reverse.find? isValid).map eventOf).or
          (if isValid d then some (eventOf d) else latest)) := by
  rw [List.reverse_cons, List.find?_append]
  cases hfind : rest.reverse.find? isValid with
  | some e => simp
  | none =>
      cases hval : isValid d with
      | true => simp [List.find?, hval]
      | false => simp [List.find?, hval]

theorem drainReads_msgs (q : List (List Nat)) :
    ∀ latest, (∀ d ∈ q, d ≠ []) →
      drainReads (q.map ReadEvent.msg) latest
        = (true, ((q.reverse.find? isValid).map eventOf).or latest) := by
  induction q with
  | nil =>
      intro latest _
      simp [drainReads]
  | cons d rest ih =>
      intro latest h
      have hd : d ≠ [] := h d (List.mem_cons_self d rest)
      have hdlen : ¬ d.length = 0 := by
        simpa [List.length_eq_zero] using hd
      simp only [List.map_cons, drainReads, if_neg hdlen]
      rw [ih _ (fun x hx => h x (List.mem_cons_of_mem d hx))]
      rw [findLast_reverse_cons]

theorem drainReads_msgs_err (pre : List (List Nat)) (rest : List ReadEvent) :
    ∀ latest, (∀ d ∈ pre, d ≠ []) →
      drainReads (pre.map ReadEvent.msg ++ ReadEvent.err :: rest) latest
        = (false, ((pre.reverse.find? isValid).map eventOf).or latest) := by
  induction pre with
  | nil =>
      intro latest _
      simp [drainReads]
  | cons d pre' ih =>
      intro latest h
      have hd : d ≠ [] := h d (List.mem_cons_self d pre')
      have hdlen : ¬ d.length = 0 := by
        simpa [List.length_eq_zero] using hd
      simp only [List.map_cons, List.cons_append, drainReads, if_neg hdlen,
        List.append_eq]
      rw [ih _ (fun x hx => h x (List.mem_cons_of_mem d hx))]
      rw [findLast_reverse_cons]

/-- C3: draining a queue of (non-empty) inbound messages returns the
`(screen, layer)` pair of the last valid message — valid meaning
length at least 3 and first byte `CMD_SCREEN_REQ = 0x03` — and `none`
when no valid message was queued; the connection stays up. -/
theorem c3_drain_last_valid (queue : List (List Nat))
    (h : ∀ d ∈ queue, d ≠ []) :
    read_device_state true (queue.map ReadEvent.msg)
      = (true, specLastValid queue) := by
  cases queue with
  | nil => simp [read_device_state, specLastValid]
  | cons d rest =>
      simp only [read_device_state, List.map_cons, if_pos]
      rw [drainReads_msgs rest _ (fun x hx => h x (List.mem_cons_of_mem d hx))]
      have := findLast_reverse_cons d rest none
      rw [Option.or_none] at this
      rw [← this]
      rfl

/-- C3 witness: with valid events `(2,0)`, `(0,1)`, `(3,1)` queued, the
drain returns `(3,1)` — only the last valid event survives. -/
theorem c3_drain_last_valid_witness :
    (∀ d ∈ [[3, 2, 0], [3, 0, 1], [3, 3, 1]], d ≠ ([] : List Nat))
  ∧ read_device_state true ([[3, 2, 0], [3, 0, 1], [3, 3, 1]].map ReadEvent.msg)
      = (true, specLastValid [[3, 2, 0], [3, 0, 1], [3, 3, 1]])
  ∧ specLastValid [[3, 2, 0], [3, 0, 1], [3, 3, 1]] = some (3, 1) :=
  ⟨by decide, c3_drain_last_valid _ (by decide), by decide⟩

/-- C10: a transport read error during the drain does not lose data:
the call marks the connection as lost (`connected = false`) and still
returns the last valid event observed before the error. -/
theorem c10_error_drain (pre : List (List Nat)) (rest : List ReadEvent)
    (h : ∀ d ∈ pre, d ≠ []) :
    read_device_state true (pre.map ReadEvent.msg ++ ReadEvent.err :: rest)
      = (false, specLastValid pre) := by
  cases pre with
  | nil => simp [read_device_state, specLastValid]
  | cons d pre' =>
      simp only [read_device_state, List.map_cons, List.cons_append, if_pos]
      rw [drainReads_msgs_err pre' rest _
        (fun x hx => h x (List.mem_cons_of_mem d hx))]
      have := findLast_reverse_cons d pre' none
      rw [Option.or_none] at this
      rw [← this]
      rfl

/-- C10 witness: one valid event `(2,0)` followed by a transport error:
the call reports the connection lost and still returns `(2,0)`. -/
theorem c10_error_drain_witness :
    (∀ d ∈ [[3, 2, 0]], d ≠ ([] : List Nat))
  ∧ read_device_state true ([[3, 2, 0]].map ReadEvent.msg ++ [ReadEvent.err])
      = (false, specLastValid [[3, 2, 0]])
  ∧ specLastValid [[3, 2, 0]] = some (2, 0) :=
  ⟨by decide, c10_error_drain [[3, 2, 0]] [] (by decide), by decide⟩

theorem audioCallbackStep_peak (st : AudioState) (raw : List ℚ) :
    (audioCallbackStep st raw).peak
      = max (if blockMax raw > st.peak then blockMax raw
             else st.peak * (995 / 1000)) (1 / 1000) := rfl

theorem audioCallbackStep_bands (st : AudioState) (raw : List ℚ) :
    (audioCallbackStep st raw).bands
      = List.zipWith
          (fun b r =>
            let level := min 1 (r / (audioCallbackStep st raw).peak)
            if level > b then level else b * (3 / 4) + level * (1 / 4))
          st.bands raw := rfl

theorem blockMax_rawBlock (x : ℚ) : blockMax (rawBlock x) = x := by
  simp [rawBlock, blockMax, List.foldl]

/-- C4: the spec formula `peak' = max(peak * 0.995, blockmax, 0.001)`
disagrees with the code when the block maximum lies strictly between
the decayed and the undecayed old peak: with old peak `1` and block
values all `0.999`, the code keeps the decayed peak `0.995`, while the
claimed formula yields `0.999`. -/
theorem c4_counterexample :
    (audioCallbackStep (AudioState.mk (List.replicate 16 0) 1)
        (rawBlock (999 / 1000))).peak
      ≠ claimedPeakUpdate 1 (rawBlock (999 / 1000)) := by
  rw [audioCallbackStep_peak]
  simp only [claimedPeakUpdate, blockMax_rawBlock]
  norm_num [max_def]

/-- C4 (amended): the peak update equals the block maximum floored at
`0.001` when the block maximum exceeds the (undecayed) old peak, and
otherwise the old peak decayed by 0.5% floored at `0.001`; it is never
below `0.001`. -/
theorem c4_peak_update (st : AudioState) (raw : List ℚ) :
    (st.peak < blockMax raw →
      (audioCallbackStep st raw).peak = max (blockMax raw) (1 / 1000))
  ∧ (blockMax raw ≤ st.peak →
      (audioCallbackStep st raw).peak = max (st.peak * (995 / 1000)) (1 / 1000))
  ∧ (1 / 1000 : ℚ) ≤ (audioCallbackStep st raw).peak := by
  rw [audioCallbackStep_peak]
  refine ⟨fun h => ?_, fun h => ?_, le_max_right _ _⟩
  · rw [if_pos h]
  · rw [if_neg (not_lt.mpr h)]

/-- C4 witness: a block louder than the old peak raises the peak to the
block maximum. -/
theorem c4_peak_update_witness :
    (AudioState.mk (List.replicate 16 0) 1).peak < blockMax (rawBlock 2)
  ∧ (audioCallbackStep (AudioState.mk (List.replicate 16 0) 1)
        (rawBlock 2)).peak
      = max (blockMax (rawBlock 2)) (1 / 1000) :=
  ⟨by rw [blockMax_rawBlock]; norm_num,
    (c4_peak_update (AudioState.mk (List.replicate 16 0) 1) (rawBlock 2)).1
      (by rw [blockMax_rawBlock]; norm_num)⟩

theorem mem_zipWith_elim {α β γ : Type} {f : α → β → γ} :
    ∀ {l₁ : List α} {l₂ : List β} {c : γ}, c ∈ List.zipWith f l₁ l₂ →
      ∃ a b, a ∈ l₁ ∧ b ∈ l₂ ∧ c = f a b := by
  intro l₁
  induction l₁ with
  | nil =>
      intro l₂ c hc
      simp at hc
  | cons a l ih =>
      intro l₂ c hc
      cases l₂ with
      | nil => simp at hc
      | cons b l₂' =>
          simp only [List.zipWith_cons_cons] at hc
          rcases List.mem_cons.mp hc with h | h
          · exact ⟨a, b, List.mem_cons_self a l, List.mem_cons_self b l₂', h⟩
          · obtain ⟨x, y, hx, hy, hxy⟩ := ih h
            exact ⟨x, y, List.mem_cons_of_mem a hx, List.mem_cons_of_mem b hy,
              hxy⟩

theorem band_update_bounds (bands raw : List ℚ) (p : ℚ) (hp : 0 < p)
    (hbands : ∀ b ∈ bands, 0 ≤ b ∧ b ≤ 1) (hraw : ∀ r ∈ raw, 0 ≤ r) :
    ∀ b ∈ List.zipWith
        (fun b r =>
          let level := min 1 (r / p)
          if level > b then level else b * (3 / 4) + level * (1 / 4))
        bands raw, 0 ≤ b ∧ b ≤ 1 := by
  intro b hb
  obtain ⟨a, r, ha, hr, rfl⟩ := mem_zipWith_elim hb
  obtain ⟨ha0, ha1⟩ := hbands a ha
  have hr0 : 0 ≤ r := hraw r hr
  have hl0 : (0 : ℚ) ≤ min 1 (r / p) := le_min zero_le_one (div_nonneg hr0 hp.le)
  have hl1 : min 1 (r / p) ≤ 1 := min_le_left _ _
  dsimp only
  split
  · exact ⟨hl0, hl1⟩
  · constructor
    · linarith
    · linarith

theorem audioCallbackStep_peak_pos (st : AudioState) (raw : List ℚ) :
    (0 : ℚ) < (audioCallbackStep st raw).peak := by
  rw [audioCallbackStep_peak]
  exact lt_of_lt_of_le (by norm_num) (le_max_right _ _)

theorem audioCallbackStep_preserves (st : AudioState) (raw : List ℚ)
    (hst : AudioInv st) (hlen : raw.length = 16) (hraw : ∀ r ∈ raw, 0 ≤ r) :
    AudioInv (audioCallbackStep st raw) := by
  obtain ⟨hblen, hbands, _⟩ := hst
  refine ⟨?_, ?_, (audioCallbackStep_peak st raw) ▸ le_max_right _ _⟩
  · rw [audioCallbackStep_bands, List.length_zipWith, hblen, hlen]
    decide
  · rw [audioCallbackStep_bands]
    exact band_update_bounds st.bands raw _
      (audioCallbackStep_peak_pos st raw) hbands hraw

theorem processAudio_inv (blocks : List (List ℚ)) :
    ∀ st, AudioInv st →
      (∀ blk ∈ blocks, blk.length = 16 ∧ ∀ r ∈ blk, 0 ≤ r) →
      AudioInv (blocks.foldl audioCallbackStep st) := by
  induction blocks with
  | nil =>
      intro st h _
      simpa using h
  | cons blk rest ih =>
      intro st h hall
      simp only [List.foldl_cons]
      exact ih _
        (audioCallbackStep_preserves st blk h
          (hall blk (List.mem_cons_self blk rest)).1
          (hall blk (List.mem_cons_self blk rest)).2)
        (fun b hb => hall b (List.mem_cons_of_mem blk hb))

theorem audioInit_inv : AudioInv audioInit := by
  refine ⟨by simp [audioInit], ?_, by norm_num [audioInit]⟩
  intro b hb
  simp only [audioInit] at hb
  rw [List.eq_of_mem_replicate hb]
  norm_num

/-- C5: for every sequence of audio blocks with non-negative raw band
values (FFT magnitudes are non-negative, including the all-zero
blocks of sustained silence), the analyzer state keeps 16 band levels,
each in `[0, 1]`, and the peak never drops below `0.001`. -/
theorem c5_band_invariant (blocks : List (List ℚ))
    (h : ∀ blk ∈ blocks, blk.length = 16 ∧ ∀ r ∈ blk, 0 ≤ r) :
    AudioInv (processAudio blocks) :=
  processAudio_inv blocks audioInit audioInit_inv h

theorem rawBlock_ok (x : ℚ) (hx : 0 ≤ x) :
    (rawBlock x).length = 16 ∧ ∀ r ∈ rawBlock x, 0 ≤ r := by
  refine ⟨by simp [rawBlock], ?_⟩
  intro r hr
  simp only [rawBlock, List.mem_cons, List.not_mem_nil, or_false] at hr
  rcases hr with rfl | rfl | rfl | rfl | rfl | rfl | rfl | rfl | rfl | rfl |
    rfl | rfl | rfl | rfl | rfl | rfl <;> exact hx

/-- C5 witness: the invariant after three blocks — a silent block, a
loud block, and another silent block. -/
theorem c5_band_invariant_witness :
    (∀ blk ∈ [rawBlock 0, rawBlock 5, rawBlock 0],
        blk.length = 16 ∧ ∀ r ∈ blk, 0 ≤ r)
  ∧ AudioInv (processAudio [rawBlock 0, rawBlock 5, rawBlock 0]) := by
  have h : ∀ blk ∈ [rawBlock 0, rawBlock 5, rawBlock 0],
      blk.length = 16 ∧ ∀ r ∈ blk, (0 : ℚ) ≤ r := by
    intro blk hblk
    simp only [List.mem_cons, List.not_mem_nil, or_false] at hblk
    rcases hblk with rfl | rfl | rfl
    · exact rawBlock_ok 0 le_rfl
    · exact rawBlock_ok 5 (by norm_num)
    · exact rawBlock_ok 0 le_rfl
  exact ⟨h, c5_band_invariant _ h⟩

/-- C9: the synthetic fallback does NOT expose the real analyzer's
`[0, 1]` read contract: starting from the initial bar value 0, one
"playing" refresh toward the (legal) random target 4 yields bar value
2, outside `[0, 1]`. -/
theorem c9_counterexample :
    vizBarUpdate true 4 0 = 2 ∧ ¬ (vizBarUpdate true 4 0 ≤ 1) := by
  constructor <;> norm_num [vizBarUpdate]

/-- C9 (amended): the fallback bars are pixel heights, not normalized
levels: when media is not playing each bar decays by the factor `0.8`
per refresh floored at 1 (`0.8 · v` when that stays at least 1,
else exactly 1), and for bar values in `[0, 12]` and targets in
`[2, 12]` every refresh keeps the bar in `[0, 12]` — a different read
contract from the real analyzer's `[0, 1]` bands. -/
theorem c9_viz_fallback (playing : Bool) (target v : ℚ)
    (hv0 : 0 ≤ v) (hv12 : v ≤ 12) (ht2 : 2 ≤ target) (ht12 : target ≤ 12) :
    (1 ≤ v * (4 / 5) → vizBarUpdate false target v = v * (4 / 5))
  ∧ (v * (4 / 5) ≤ 1 → vizBarUpdate false target v = 1)
  ∧ 0 ≤ vizBarUpdate playing target v
  ∧ vizBarUpdate playing target v ≤ 12 := by
  refine ⟨fun h => ?_, fun h => ?_, ?_, ?_⟩
  · exact max_eq_right h
  · exact max_eq_left h
  · unfold vizBarUpdate
    split
    · linarith
    · exact le_trans zero_le_one (le_max_left _ _)
  · unfold vizBarUpdate
    split
    · linarith
    · exact max_le (by norm_num) (by linarith)

/-- C9 witness: a decaying bar at height 10 while not playing, and the
range bound for a playing refresh from the same height. -/
theorem c9_viz_fallback_witness :
    (1 ≤ (10 : ℚ) * (4 / 5) ∧ vizBarUpdate false 4 10 = 10 * (4 / 5))
  ∧ vizBarUpdate true 4 10 ≤ 12 :=
  ⟨⟨by norm_num, (c9_viz_fallback false 4 10 (by norm_num) (by norm_num)
      (by norm_num) (by norm_num)).1 (by norm_num)⟩,
    (c9_viz_fallback true 4 10 (by norm_num) (by norm_num) (by norm_num)
      (by norm_num)).2.2.2⟩

theorem mainEventStep_index_lt (cur : Nat × Nat) (state : Option (Nat × Nat))
    (h : cur.1 < SCREENS.length) :
    (mainEventStep cur state).1 < SCREENS.length := by
  cases state with
  | none => exact h
  | some s =>
      simp only [mainEventStep]
      split
      · assumption
      · exact h

/-- C6: an arriving device-state event updates the screen index only
when it is within the registered renderer set (an out-of-range index
retains the previous screen), always updates the layer index, and no
event leaves both unchanged; along any event sequence from the initial
`(0, 0)` the selected screen index stays a legal index into `SCREENS`,
so `SCREENS[current_screen]` never indexes out of range. -/
theorem c6_screen_selection (cur : Nat × Nat) (idx layer : Nat) :
    mainEventStep cur none = cur
  ∧ (idx < SCREENS.length → mainEventStep cur (some (idx, layer)) = (idx, layer))
  ∧ (SCREENS.length ≤ idx →
      mainEventStep cur (some (idx, layer)) = (cur.1, layer))
  ∧ ∀ events : List (Option (Nat × Nat)),
      (events.foldl mainEventStep mainInitialIndices).1 < SCREENS.length := by
  refine ⟨rfl, fun h => ?_, fun h => ?_, fun events => ?_⟩
  · simp [mainEventStep, h]
  · simp [mainEventStep, Nat.not_lt.mpr h]
  · have key : ∀ (es : List (Option (Nat × Nat))) (c : Nat × Nat),
        c.1 < SCREENS.length →
        (es.foldl mainEventStep c).1 < SCREENS.length := by
      intro es
      induction es with
      | nil => intro c h; simpa using h
      | cons e rest ih =>
          intro c h
          simp only [List.foldl_cons]
          exact ih _ (mainEventStep_index_lt c e h)
    exact key events mainInitialIndices (by decide)

/-- C6 witness: from screen 2, the out-of-range index 99 retains the
screen while the layer still updates. -/
theorem c6_screen_selection_witness :
    SCREENS.length ≤ 99
  ∧ mainEventStep (2, 0) (some (99, 1)) = ((2, 0).1, 1) :=
  ⟨by decide, (c6_screen_selection (2, 0) 99 1).2.2.1 (by decide)⟩

/-- C7: the status reporting of `main` is NOT exactly-once per
transition: when the very first connection attempt fails and the next
one succeeds, the single transition into Connected prints
"Device connected" twice (once via `error_printed`, once via
`init_printed`). The two examples of the claim do hold: five
consecutive connected polls print exactly one notification, and a
disconnect followed by a reconnect prints exactly one notification per
edge. -/
theorem c7_notification_trace :
    mainNotifRun [false, true]
      = [Notif.notConnected, Notif.connected, Notif.connected]
  ∧ mainNotifRun [true, true, true, true, true] = [Notif.connected]
  ∧ mainNotifRun [true, false, true]
      = [Notif.connected, Notif.disconnected, Notif.connected] := by
  refine ⟨rfl, rfl, rfl⟩

/-- C8: whenever the oldest retained sample has the same timestamp as
the newest (zero elapsed time), `render_io` takes the guarded branch
and reports all four rates as 0 — no division by zero occurs. -/
theorem c8_zero_elapsed (samples : List IoSample) (cur oldest : IoSample)
    (h : (trimOld (cur.t - ioWindow) (samples ++ [cur])).head? = some oldest)
    (ht : oldest.t = cur.t) :
    (ioRatesStep samples cur).2 = (0, 0, 0, 0) := by
  unfold ioRatesStep
  split
  · rename_i o second rest heq
    rw [heq] at h
    simp only [List.head?_cons, Option.some.injEq] at h
    have hdt : ¬ (0 < cur.t - o.t) := by
      rw [h, ht]
      simp
    rw [if_neg hdt]
  · rfl

/-- C8 witness: two samples at the identical timestamp 0 with counter
deltas of 100 bytes: the rates are 0, not a division by zero. -/
theorem c8_zero_elapsed_witness :
    ((trimOld ((IoSample.mk 0 100 200 300 400).t - ioWindow)
        ([IoSample.mk 0 0 0 0 0] ++ [IoSample.mk 0 100 200 300 400])).head?
      = some (IoSample.mk 0 0 0 0 0)
  ∧ (IoSample.mk 0 0 0 0 0).t = (IoSample.mk 0 100 200 300 400).t)
  ∧ (ioRatesStep [IoSample.mk 0 0 0 0 0] (IoSample.mk 0 100 200 300 400)).2
      = (0, 0, 0, 0) := by
  have h1 : (trimOld ((IoSample.mk 0 100 200 300 400).t - ioWindow)
      ([IoSample.mk 0 0 0 0 0] ++ [IoSample.mk 0 100 200 300 400])).head?
      = some (IoSample.mk 0 0 0 0 0) := by
    simp only [List.cons_append, List.nil_append, trimOld, ioWindow]
    norm_num
  exact ⟨⟨h1, rfl⟩,
    c8_zero_elapsed [IoSample.mk 0 0 0 0 0] (IoSample.mk 0 100 200 300 400)
      (IoSample.mk 0 0 0 0 0) h1 rfl⟩

end HidPixel
